import Mathlib

/-!
Shallow embedding of `light/postprocess.go` (package `light` of the
go-blockchain repository): the CHT and Bloom Trie section indexer backends,
the section root store and the trusted checkpoint registry.

Modelling conventions:
* Go byte slices are `List Nat` (each entry a byte value).
* `common.Hash` (32 bytes) is a `List Nat` of length 32; `common.BytesToHash`
  is embedded as `bytesToHash`.
* The key-value store (`ethdb.Database`) is an association list together with
  failure-injection sets, so that a `Get`/`Put` storage error is a concrete,
  observable event of the model.  `dbGet` mirrors Go's `(data, err)` result
  pair; a miss yields `(nil, errNotFound)` as in the leveldb backend.
* The Merkle-Patricia trie is an external collaborator (out of scope per the
  repository's own design); it is modelled as an association list with a
  deterministic root function, and the trie node database maps committed
  roots back to trie contents.
* `rawdb.ReadTd`, `rawdb.ReadBloomBits`, `bitutil.CompressBytes` and
  `bitutil.DecompressBytes` are external collaborators of this file's code;
  the backend operations take them as function parameters.
* Go panics (`panic(nil)` on missing total difficulty, slice index out of
  range) are modelled by an `Option` result, `none` meaning the halt.
-/

/-- Byte strings: each entry is one byte value. -/
abbrev Bytes := List Nat

/-- `binary.BigEndian.PutUint64` / `PutUint16`: big-endian encoding of `n`
into `w` bytes (higher bits beyond `w` bytes are dropped, as the Go integer
cast does). -/
def beBytes : Nat → Nat → Bytes
  | 0, _ => []
  | w + 1, n => beBytes w (n / 256) ++ [n % 256]

/-- Bytes of an ASCII string literal such as the `"chtRoot-"` key prefix. -/
def strBytes (s : String) : Bytes := s.data.map Char.toNat

/-- `common.BytesToHash` / `Hash.SetBytes`: keep the last 32 bytes and left
pad with zero bytes to length 32. -/
def bytesToHash (b : Bytes) : Bytes :=
  let b2 := if 32 < b.length then b.drop (b.length - 32) else b
  List.replicate (32 - b2.length) 0 ++ b2

/-- The zero value of `common.Hash`. -/
def zeroHash : Bytes := List.replicate 32 0

/-- First-match association list lookup (the read view of both the key-value
store and the modelled trie). -/
def lookupKV {β : Type} : List (Bytes × β) → Bytes → Option β
  | [], _ => none
  | (k2, v) :: t, k => if k2 = k then some v else lookupKV t k

/-- Errors of the storage and trie collaborators. -/
inductive DBErr
  | notFound
  | ioError (code : Nat)
  | missingRoot
deriving DecidableEq

/-- The key-value store (`ethdb.Database`): stored entries plus
failure-injection sets naming the keys on which `Get` resp. `Put` suffer a
genuine storage-access error. -/
structure KVStore where
  entries : List (Bytes × Bytes)
  failGet : List Bytes
  failPut : List Bytes
deriving DecidableEq

/-- `db.Get`: returns Go's `(data, err)` pair.  An injected storage error
returns `(nil, ioError)`; a miss returns `(nil, notFound)` as the leveldb
backend does. -/
def dbGet (db : KVStore) (k : Bytes) : Bytes × Option DBErr :=
  if k ∈ db.failGet then ([], some (DBErr.ioError 0))
  else
    match lookupKV db.entries k with
    | some v => (v, none)
    | none => ([], some DBErr.notFound)

/-- `db.Put`: returns the updated store and Go's `err` result.  An injected
storage error leaves the store unchanged. -/
def dbPut (db : KVStore) (k v : Bytes) : KVStore × Option DBErr :=
  if k ∈ db.failPut then (db, some (DBErr.ioError 0))
  else ({ db with entries := (k, v) :: db.entries }, none)

/-- `CHTFrequencyClient`: block frequency for creating CHTs on the client side. -/
def CHTFrequencyClient : Nat := 32768

/-- `CHTFrequencyServer`: block frequency for creating CHTs on the server side. -/
def CHTFrequencyServer : Nat := 4096

/-- `HelperTrieConfirmations`. -/
def HelperTrieConfirmations : Nat := 2048

/-- `HelperTrieProcessConfirmations`. -/
def HelperTrieProcessConfirmations : Nat := 256

/-- `BloomTrieFrequency`. -/
def BloomTrieFrequency : Nat := 32768

/-- `ethBloomBitsSection`. -/
def ethBloomBitsSection : Nat := 4096

/-- `ethBloomBitsConfirmations`. -/
def ethBloomBitsConfirmations : Nat := 256

/-- `types.BloomBitLength`: the bloom filter width in bits (2048); the spec's
`bloomFilterWidth`. -/
def BloomBitLength : Nat := 2048

/-- The key `chtPrefix ++ encNumber ++ sectionHead.Bytes()` built by
`GetChtRoot` / `StoreChtRoot` (`chtPrefix = "chtRoot-"`). -/
def chtKey (sectionIdx : Nat) (sectionHead : Bytes) : Bytes :=
  strBytes ("chtRoot-") ++ beBytes 8 sectionIdx ++ sectionHead

/-- `GetChtRoot`: reads the CHT root associated to the given section from the
database.  Faithful to the source, the `err` component of `db.Get` is
discarded (`data, _ := db.Get(...)`). -/
def GetChtRoot (db : KVStore) (sectionIdx : Nat) (sectionHead : Bytes) : Bytes :=
  bytesToHash (dbGet db (chtKey sectionIdx sectionHead)).1

/-- `GetChtV2Root`: reads the CHT root for a LES/2 (client frequency) section
index by converting it to the LES/1 (server frequency) index. -/
def GetChtV2Root (db : KVStore) (sectionIdx : Nat) (sectionHead : Bytes) : Bytes :=
  GetChtRoot db ((sectionIdx + 1) * (CHTFrequencyClient / CHTFrequencyServer) - 1) sectionHead

/-- `StoreChtRoot`: writes the CHT root associated to the given section into
the database.  Faithful to the source, the result of `db.Put` is discarded
and the Go function returns nothing. -/
def StoreChtRoot (db : KVStore) (sectionIdx : Nat) (sectionHead root : Bytes) : KVStore :=
  (dbPut db (chtKey sectionIdx sectionHead) root).1

/-- The key `bloomTriePrefix ++ encNumber ++ sectionHead.Bytes()` built by
`GetBloomTrieRoot` / `StoreBloomTrieRoot` (`bloomTriePrefix = "bltRoot-"`). -/
def bloomTrieRootKey (sectionIdx : Nat) (sectionHead : Bytes) : Bytes :=
  strBytes ("bltRoot-") ++ beBytes 8 sectionIdx ++ sectionHead

/-- `GetBloomTrieRoot`: reads the BloomTrie root associated to the given
section from the database; the `err` of `db.Get` is discarded as in the
source. -/
def GetBloomTrieRoot (db : KVStore) (sectionIdx : Nat) (sectionHead : Bytes) : Bytes :=
  bytesToHash (dbGet db (bloomTrieRootKey sectionIdx sectionHead)).1

/-- `StoreBloomTrieRoot`: writes the BloomTrie root associated to the given
section into the database; the result of `db.Put` is discarded as in the
source. -/
def StoreBloomTrieRoot (db : KVStore) (sectionIdx : Nat) (sectionHead root : Bytes) : KVStore :=
  (dbPut db (bloomTrieRootKey sectionIdx sectionHead) root).1

/-- The trie content view: an association list from leaf keys to leaf values.
The Merkle-Patricia trie implementation itself is an external collaborator of
the embedded code (`trie.Trie`); only its `Update` / `Delete` / `Commit`
interface behaviour is modelled. -/
abbrev Trie := List (Bytes × Bytes)

/-- `trie.Update key value`: bind `key` to `value`, replacing an existing
binding. -/
def trieUpdate : Trie → Bytes → Bytes → Trie
  | [], k, v => [(k, v)]
  | (k2, v2) :: t, k, v => if k2 = k then (k, v) :: t else (k2, v2) :: trieUpdate t k v

/-- `trie.Delete key`: remove the binding at `key`. -/
def trieDelete : Trie → Bytes → Trie
  | [], _ => []
  | (k2, v2) :: t, k => if k2 = k then trieDelete t k else (k2, v2) :: trieDelete t k

/-- Read a leaf back out of the modelled trie. -/
def trieGet (t : Trie) (k : Bytes) : Option Bytes := lookupKV t k

/-- Length-prefixed flattening of the trie content, input of the modelled
root. -/
def trieEncode : Trie → Bytes
  | [] => []
  | (k, v) :: t => beBytes 4 k.length ++ k ++ beBytes 4 v.length ++ v ++ trieEncode t

/-- `trie.Commit` root: a deterministic 32-byte digest of the trie content
(the collaborator's keccak-based root is opaque to the embedded code; only
determinism matters to it). -/
def trieRoot (t : Trie) : Bytes := bytesToHash (beBytes 8 (trieEncode t).length ++ trieEncode t)

/-- The trie node database (`trie.Database`): committed tries retrievable by
their root. -/
structure TrieDB where
  tries : List (Bytes × Trie)
deriving DecidableEq

/-- `triedb.Commit root`: persist the nodes of `t` under `root`. -/
def trieDBCommit (tdb : TrieDB) (root : Bytes) (t : Trie) : TrieDB :=
  { tries := (root, t) :: tdb.tries }

/-- `trie.New(root, triedb)`: the zero root opens a fresh empty trie; a
non-zero root must resolve in the node database, otherwise the open fails. -/
def trieNew (root : Bytes) (tdb : TrieDB) : Except DBErr Trie :=
  if root = zeroHash then Except.ok []
  else
    match lookupKV tdb.tries root with
    | some t => Except.ok t
    | none => Except.error DBErr.missingRoot

/-- A chain header as seen by the backends: its hash (`header.Hash()`) and
its block number (`header.Number.Uint64()`, a value below `2 ^ 64`). -/
structure Header where
  hash : Bytes
  number : Nat
deriving DecidableEq

/-- Go `uint64` subtraction `a - b` with wraparound modulo `2 ^ 64`. -/
def sub64 (a b : Nat) : Nat := (a % 2 ^ 64 + (2 ^ 64 - b % 2 ^ 64)) % 2 ^ 64

/-- Minimal big-endian bytes of a natural number (no leading zero byte, empty
for zero): the RLP integer body used for `*big.Int` fields. -/
def minimalBE (n : Nat) : Bytes :=
  if h : n = 0 then [] else minimalBE (n / 256) ++ [n % 256]
decreasing_by exact Nat.div_lt_self (Nat.pos_of_ne_zero h) (by omega)

/-- RLP encoding of a byte string. -/
def rlpEncodeBytes (b : Bytes) : Bytes :=
  if b.length = 1 ∧ b.headD 0 < 128 then b
  else if b.length < 56 then (128 + b.length) :: b
  else (183 + (minimalBE b.length).length) :: (minimalBE b.length ++ b)

/-- RLP encoding of a list payload. -/
def rlpEncodeListPayload (payload : Bytes) : Bytes :=
  if payload.length < 56 then (192 + payload.length) :: payload
  else (247 + (minimalBE payload.length).length) :: (minimalBE payload.length ++ payload)

/-- `rlp.EncodeToBytes(ChtNode{hash, td})`: the RLP encoding of the
two-field structure stored in the Canonical Hash Trie (a 32-byte hash and an
arbitrary-precision unsigned total difficulty). -/
def rlpChtNode (hash : Bytes) (td : Nat) : Bytes :=
  rlpEncodeListPayload (rlpEncodeBytes hash ++ rlpEncodeBytes (minimalBE td))

/-- `ChtIndexerBackend` working state.  The `diskdb` and `triedb` fields of
the Go struct are the shared stores; they are passed explicitly to the
operations below. -/
structure ChtIndexerBackend where
  sectionNum : Nat
  sectionSize : Nat
  lastHash : Bytes
  trie : Trie
deriving DecidableEq

/-- The backend part of `NewChtIndexer`: section size by mode, zero-valued
`lastHash`, no trie opened yet. -/
def newChtIndexerBackend (clientMode : Bool) : ChtIndexerBackend :=
  { sectionNum := 0
    sectionSize := if clientMode then CHTFrequencyClient else CHTFrequencyServer
    lastHash := zeroHash
    trie := [] }

/-- `ChtIndexerBackend.Reset`: chain the new section's trie from the previous
section's persisted root (the zero root, hence an empty trie, for section 0)
and record the section index. -/
def ChtIndexerBackend.Reset (c : ChtIndexerBackend) (db : KVStore) (tdb : TrieDB)
    (sectionIdx : Nat) (lastSectionHead : Bytes) : Except DBErr ChtIndexerBackend :=
  let root := if 0 < sectionIdx then GetChtRoot db (sectionIdx - 1) lastSectionHead else zeroHash
  (trieNew root tdb).map (fun t => { c with trie := t, sectionNum := sectionIdx })

/-- `ChtIndexerBackend.Process`: look up the header's total difficulty in the
external index (`rawdb.ReadTd`, passed as `readTd`); `panic(nil)` on a
missing entry is modelled as `none`.  On success, insert the leaf for the
block number and record the header hash as the running last hash. -/
def ChtIndexerBackend.Process (readTd : Bytes → Nat → Option Nat)
    (c : ChtIndexerBackend) (header : Header) : Option ChtIndexerBackend :=
  match readTd header.hash header.number with
  | none => none
  | some td =>
    some { c with
            lastHash := header.hash
            trie := trieUpdate c.trie (beBytes 8 header.number) (rlpChtNode header.hash td) }

/-- `ChtIndexerBackend.Commit`: commit the trie, persist its nodes and store
the section root under `(section, lastHash)`.  The Go code discards the
result of `triedb.Commit`, and the store write swallows its own error, so the
only failure source is the trie commit of the collaborator, modelled total;
the error component mirrors Go's returned `error`. -/
def ChtIndexerBackend.Commit (c : ChtIndexerBackend) (tdb : TrieDB) (db : KVStore) :
    Option DBErr × ChtIndexerBackend × TrieDB × KVStore :=
  let root := trieRoot c.trie
  (none, c, trieDBCommit tdb root c.trie, StoreChtRoot db c.sectionNum c.lastHash root)

/-- `BloomTrieIndexerBackend` working state (`sectionNum` embeds the Go field
`section`, a Lean keyword); the shared `diskdb` / `triedb` stores are passed
explicitly to the operations. -/
structure BloomTrieIndexerBackend where
  sectionNum : Nat
  parentSectionSize : Nat
  bloomTrieRatio : Nat
  trie : Trie
  sectionHeads : List Bytes
deriving DecidableEq

/-- The backend part of `NewBloomTrieIndexer`: parent section size by mode,
`bloomTrieRatio = BloomTrieFrequency / parentSectionSize`, and the
sub-section-head scratch array allocated once, zero-valued, with
`bloomTrieRatio` slots. -/
def newBloomTrieIndexerBackend (clientMode : Bool) : BloomTrieIndexerBackend :=
  let pss := if clientMode then BloomTrieFrequency else ethBloomBitsSection
  { sectionNum := 0
    parentSectionSize := pss
    bloomTrieRatio := BloomTrieFrequency / pss
    trie := []
    sectionHeads := List.replicate (BloomTrieFrequency / pss) zeroHash }

/-- `BloomTrieIndexerBackend.Reset`: chain the new section's trie from the
previous section's persisted root (empty trie for section 0) and record the
section index.  The source touches no other field. -/
def BloomTrieIndexerBackend.Reset (b : BloomTrieIndexerBackend) (db : KVStore)
    (tdb : TrieDB) (sectionIdx : Nat) (lastSectionHead : Bytes) :
    Except DBErr BloomTrieIndexerBackend :=
  let root := if 0 < sectionIdx then GetBloomTrieRoot db (sectionIdx - 1) lastSectionHead
              else zeroHash
  (trieNew root tdb).map (fun t => { b with trie := t, sectionNum := sectionIdx })

/-- `BloomTrieIndexerBackend.Process`: `num` is the uint64 difference
`header.Number.Uint64() - b.section*BloomTrieFrequency`; when `num+1` is a
multiple of the parent section size, the header hash is recorded in scratch
slot `num / parentSectionSize`.  A slot index beyond the scratch array is a
Go slice-bounds panic, modelled as `none`. -/
def BloomTrieIndexerBackend.Process (b : BloomTrieIndexerBackend) (header : Header) :
    Option BloomTrieIndexerBackend :=
  let num := sub64 header.number (b.sectionNum * BloomTrieFrequency)
  if (num + 1) % b.parentSectionSize = 0 then
    if num / b.parentSectionSize < b.sectionHeads.length then
      some { b with sectionHeads := b.sectionHeads.set (num / b.parentSectionSize) header.hash }
    else none
  else some b

/-- The 10-byte leaf key `encKey` of the bloom trie: 2-byte big-endian bit
index followed by the 8-byte big-endian section index. -/
def encBloomKey (bitIndex sectionIdx : Nat) : Bytes :=
  beBytes 2 bitIndex ++ beBytes 8 sectionIdx

/-- Inner loop of `BloomTrieIndexerBackend.Commit` for one bit position:
read the raw compressed vector of each constituent sub-section `j` from the
external bloom-bits store (`rawdb.ReadBloomBits`, passed as `readBB`),
decompress it to `parentSectionSize/8` bytes (`bitutil.DecompressBytes`,
passed as `decompress`), and concatenate in increasing `j` order; the first
failing read or decompression aborts with that error.  `fuel` counts the
remaining sub-sections, starting at `bloomTrieRatio` with `j = 0`. -/
def bloomColumnRead (readBB : Nat → Nat → Bytes → Except DBErr Bytes)
    (decompress : Bytes → Nat → Except DBErr Bytes) (b : BloomTrieIndexerBackend)
    (i : Nat) : Nat → Nat → Except DBErr Bytes
  | 0, _ => Except.ok []
  | fuel + 1, j =>
    match readBB i (b.sectionNum * b.bloomTrieRatio + j) (b.sectionHeads.getD j zeroHash) with
    | Except.error e => Except.error e
    | Except.ok data =>
      match decompress data (b.parentSectionSize / 8) with
      | Except.error e2 => Except.error e2
      | Except.ok decompData =>
        (bloomColumnRead readBB decompress b i fuel (j + 1)).map
          (fun rest => decompData ++ rest)

/-- The whole decompressed bit vector of one bit position across the section
(the `decomp` accumulator of the source's inner loop). -/
def bloomColumn (readBB : Nat → Nat → Bytes → Except DBErr Bytes)
    (decompress : Bytes → Nat → Except DBErr Bytes) (b : BloomTrieIndexerBackend)
    (i : Nat) : Except DBErr Bytes :=
  bloomColumnRead readBB decompress b i b.bloomTrieRatio 0

/-- Outer loop of `BloomTrieIndexerBackend.Commit` over bit positions
`i, i+1, ...` (`fuel` many): build each column, compress it with the external
compressor (`bitutil.CompressBytes`, passed as `compress`), and either insert
the leaf (non-empty compressed data) or delete it (empty).  A column failure
aborts immediately with that error and the trie as mutated so far. -/
def commitBits (readBB : Nat → Nat → Bytes → Except DBErr Bytes)
    (compress : Bytes → Bytes) (decompress : Bytes → Nat → Except DBErr Bytes)
    (b : BloomTrieIndexerBackend) : Nat → Nat → Trie → Option DBErr × Trie
  | 0, _, t => (none, t)
  | fuel + 1, i, t =>
    match bloomColumn readBB decompress b i with
    | Except.error e => (some e, t)
    | Except.ok decomp =>
      let comp := compress decomp
      commitBits readBB compress decompress b fuel (i + 1)
        (if 0 < comp.length then trieUpdate t (encBloomKey i b.sectionNum) comp
         else trieDelete t (encBloomKey i b.sectionNum))

/-- `BloomTrieIndexerBackend.Commit`: run the per-bit loop over all
`BloomBitLength` bit positions; on success commit the trie, persist its
nodes, and store the section root under the last sub-section head; on a read
or decompression failure return that error with both stores untouched (the
Go code performs no disk write before the failing return). -/
def BloomTrieIndexerBackend.Commit (readBB : Nat → Nat → Bytes → Except DBErr Bytes)
    (compress : Bytes → Bytes) (decompress : Bytes → Nat → Except DBErr Bytes)
    (b : BloomTrieIndexerBackend) (tdb : TrieDB) (db : KVStore) :
    Option DBErr × BloomTrieIndexerBackend × TrieDB × KVStore :=
  match commitBits readBB compress decompress b BloomBitLength 0 b.trie with
  | (some e, t) => (some e, { b with trie := t }, tdb, db)
  | (none, t) =>
    let root := trieRoot t
    let sectionHead := b.sectionHeads.getD (b.bloomTrieRatio - 1) zeroHash
    (none, { b with trie := t }, trieDBCommit tdb root t,
      StoreBloomTrieRoot db b.sectionNum sectionHead root)

/-- `trustedCheckpoint`: a set of post-processed trie roots associated with
the appropriate section index and head hash. -/
structure trustedCheckpoint where
  name : String
  sectionIdx : Nat
  sectionHead : Bytes
  chtRoot : Bytes
  bloomTrieRoot : Bytes
deriving DecidableEq

/-- Hex digit value (`common.FromHex` character decoding). -/
def hexVal (c : Char) : Nat :=
  if 48 <= c.toNat ∧ c.toNat <= 57 then c.toNat - 48
  else if 97 <= c.toNat ∧ c.toNat <= 102 then c.toNat - 97 + 10
  else if 65 <= c.toNat ∧ c.toNat <= 70 then c.toNat - 65 + 10
  else 0

/-- Hex character pairs to bytes (`common.Hex2Bytes`). -/
def hexToBytes : List Char → Bytes
  | c1 :: c2 :: rest => (hexVal c1 * 16 + hexVal c2) :: hexToBytes rest
  | _ => []

/-- `common.HexToHash` for the plain 64-digit strings used in this file. -/
def hexToHash (s : String) : Bytes := bytesToHash (hexToBytes s.data)

/-- The hardcoded mainnet checkpoint. -/
def mainnetCheckpoint : trustedCheckpoint :=
  { name := "mainnet"
    sectionIdx := 174
    sectionHead := hexToHash ("a3ef48cd8f1c3a08419f0237fc7763491fe89497b3144b17adf87c1c43664613")
    chtRoot := hexToHash ("dcbeed9f4dea1b3cb75601bb27c51b9960c28e5850275402ac49a150a667296e")
    bloomTrieRoot := hexToHash ("6b7497a4a03e33870a2383cb6f5e70570f12b1bf5699063baf8c71d02ca90b02") }

/-- The hardcoded ropsten checkpoint. -/
def ropstenCheckpoint : trustedCheckpoint :=
  { name := "ropsten"
    sectionIdx := 102
    sectionHead := hexToHash ("9017ab08465cb2b2dee035ee5b817bbd7fa28e2c8d2cd903e0aed1cccb249e89")
    chtRoot := hexToHash ("f61c10a7a787a5ef15f0ae1ae6c13c64331e57e79d0466d2bd9b0c06833fe956")
    bloomTrieRoot := hexToHash ("69f2ad19aa46d5213a90137b3d2c9bff8a7c9483f7170f0125096ff450c9a873") }

/-- Modelled from the spec: `params.MainnetGenesisHash`, the genesis identity
of the mainnet chain.  The `params` package is not part of the provided
sources; the genesis identity is an opaque 32-byte value distinct from every
other genesis identity. -/
def MainnetGenesisHash : Bytes := bytesToHash [213]

/-- Modelled from the spec: `params.TestnetGenesisHash`, the genesis identity
of the ropsten test chain; opaque and distinct from `MainnetGenesisHash`. -/
def TestnetGenesisHash : Bytes := bytesToHash [65]

/-- `trustedCheckpoints`: associates each known checkpoint with the genesis
hash of the chain it belongs to. -/
def trustedCheckpoints : List (Bytes × trustedCheckpoint) :=
  [(MainnetGenesisHash, mainnetCheckpoint), (TestnetGenesisHash, ropstenCheckpoint)]

/-- Go map indexing `trustedCheckpoints[genesis]` with its `ok` flag:
`none` is Go's `ok = false` ("not found"). -/
def lookupTrustedCheckpoint (genesis : Bytes) : Option trustedCheckpoint :=
  lookupKV trustedCheckpoints genesis

/-- A store with no entries and no injected failures. -/
def emptyKV : KVStore := { entries := [], failGet := [], failPut := [] }

/-- An empty trie node database. -/
def emptyTrieDB : TrieDB := { tries := [] }

/-- A concrete non-zero hash. -/
def oneHash : Bytes := bytesToHash [1]

/-- A concrete non-zero 32-byte root. -/
def sampleRoot : Bytes := bytesToHash [7, 7]

/-- The CHT root key of section 0 with the zero section head. -/
def chtKey00 : Bytes := chtKey 0 zeroHash

/-- The bloom trie root key of section 0 with the zero section head. -/
def bltKey00 : Bytes := bloomTrieRootKey 0 zeroHash

/-- A store holding a root for `chtKey00` whose `Get` at that key suffers a
storage error. -/
def errKV : KVStore := { entries := [(chtKey00, sampleRoot)], failGet := [chtKey00], failPut := [] }

/-- A store whose `Put` at `chtKey00` suffers a storage error. -/
def putFailKV : KVStore := { entries := [], failGet := [], failPut := [chtKey00] }

/-- A store failing both `Get` and `Put` on both section-0 root keys. -/
def swallowKV : KVStore :=
  { entries := [], failGet := [chtKey00, bltKey00], failPut := [chtKey00, bltKey00] }

/-- A fresh server-mode CHT backend. -/
def chtB0 : ChtIndexerBackend := newChtIndexerBackend false

/-- A fresh server-mode bloom trie backend (ratio 8). -/
def serverBloom : BloomTrieIndexerBackend := newBloomTrieIndexerBackend false

/-- A fresh client-mode bloom trie backend (ratio 1). -/
def clientBloom : BloomTrieIndexerBackend := newBloomTrieIndexerBackend true

/-- A client-mode bloom backend carrying a stale non-zero scratch slot. -/
def staleBloom : BloomTrieIndexerBackend := { clientBloom with sectionHeads := [oneHash] }

/-- A concrete header with block number 42. -/
def hdr42 : Header := { hash := oneHash, number := 42 }

/-- A concrete header with block number 4095 (last block of the first
underlying bloom sub-section). -/
def hdr4095 : Header := { hash := oneHash, number := 4095 }

/-- A bloom-bits reader that always fails. -/
def failReadBB : Nat → Nat → Bytes → Except DBErr Bytes :=
  fun _ _ _ => Except.error (DBErr.ioError 1)

/-- A bloom-bits reader that always returns an empty compressed vector. -/
def okReadBB : Nat → Nat → Bytes → Except DBErr Bytes := fun _ _ _ => Except.ok []

/-- The identity compressor, a concrete instance of the external codec. -/
def idCompress : Bytes → Bytes := fun d => d

/-- A decompressor that accepts any input, a concrete instance of the
external codec. -/
def okDecompress : Bytes → Nat → Except DBErr Bytes := fun d _ => Except.ok d

/-- A bloom-bits reader whose returned vector records the requested bit
index and sub-section index. -/
def pairReadBB : Nat → Nat → Bytes → Except DBErr Bytes := fun i j _ => Except.ok [i, j]

/-- A decompressor that fails exactly on the vector `[7, 3]` (the one
`pairReadBB` serves for bit 7, sub-section 3) and accepts everything else. -/
def failDecompress : Bytes → Nat → Except DBErr Bytes :=
  fun data _ => if data = [7, 3] then Except.error (DBErr.ioError 2) else Except.ok data

instance {ε α : Type} [DecidableEq ε] [DecidableEq α] : DecidableEq (Except ε α) := fun a b =>
  match a, b with
  | Except.ok x, Except.ok y => if h : x = y then isTrue (by rw [h]) else isFalse (by simp [h])
  | Except.error x, Except.error y =>
    if h : x = y then isTrue (by rw [h]) else isFalse (by simp [h])
  | Except.ok _, Except.error _ => isFalse (by simp)
  | Except.error _, Except.ok _ => isFalse (by simp)

/-- A byte string already of hash length is fixed by `bytesToHash`. -/
theorem bytesToHash_of_length_eq (b : Bytes) (h : b.length = 32) : bytesToHash b = b := by
  simp [bytesToHash, h]

/-- Updating the modelled trie binds the touched key. -/
theorem trieGet_update_self (t : Trie) (k v : Bytes) :
    trieGet (trieUpdate t k v) k = some v := by
  induction t with
  | nil => simp [trieGet, trieUpdate, lookupKV]
  | cons kv t ih =>
    obtain ⟨k2, v2⟩ := kv
    by_cases h : k2 = k
    · simp [trieGet, trieUpdate, h, lookupKV]
    · simpa [trieGet, trieUpdate, h, lookupKV] using ih

/-- Updating the modelled trie leaves other keys alone. -/
theorem trieGet_update_ne (t : Trie) (k k2 v : Bytes) (h : k2 ≠ k) :
    trieGet (trieUpdate t k2 v) k = trieGet t k := by
  induction t with
  | nil => simp [trieGet, trieUpdate, lookupKV, h]
  | cons kv t ih =>
    obtain ⟨k3, v3⟩ := kv
    by_cases h3 : k3 = k2
    · simp [trieGet, trieUpdate, h3, lookupKV, h]
    · by_cases h4 : k3 = k
      · subst h4
        simp [trieGet, trieUpdate, h3, lookupKV]
      · simpa [trieGet, trieUpdate, h3, h4, lookupKV] using ih

/-- Deleting a key from the modelled trie unbinds it. -/
theorem trieGet_delete_self (t : Trie) (k : Bytes) :
    trieGet (trieDelete t k) k = none := by
  induction t with
  | nil => simp [trieGet, trieDelete, lookupKV]
  | cons kv t ih =>
    obtain ⟨k2, v2⟩ := kv
    by_cases h : k2 = k
    · simpa [trieGet, trieDelete, h, lookupKV] using ih
    · simpa [trieGet, trieDelete, h, lookupKV] using ih

/-- Deleting a key from the modelled trie leaves other keys alone. -/
theorem trieGet_delete_ne (t : Trie) (k k2 : Bytes) (h : k2 ≠ k) :
    trieGet (trieDelete t k2) k = trieGet t k := by
  induction t with
  | nil => simp [trieGet, trieDelete, lookupKV]
  | cons kv t ih =>
    obtain ⟨k3, v3⟩ := kv
    by_cases h3 : k3 = k2
    · subst h3
      simpa [trieGet, trieDelete, lookupKV, h] using ih
    · by_cases h4 : k3 = k
      · subst h4
        simp [trieGet, trieDelete, h3, lookupKV]
      · simpa [trieGet, trieDelete, h3, h4, lookupKV] using ih

/-- The two-byte big-endian encoding, expanded. -/
theorem beBytes_two (n : Nat) : beBytes 2 n = [n / 256 % 256, n % 256] := rfl

/-- The bloom trie leaf key is injective in the bit index below 2 ^ 16. -/
theorem encBloomKey_inj {i j : Nat} (s : Nat) (hi : i < 65536) (hj : j < 65536)
    (h : encBloomKey i s = encBloomKey j s) : i = j := by
  unfold encBloomKey at h
  have hlen : (beBytes 2 i).length = (beBytes 2 j).length := by
    simp [beBytes_two]
  have h2 := List.append_inj_left h hlen
  rw [beBytes_two, beBytes_two] at h2
  simp only [List.cons.injEq] at h2
  omega

/-- The commit loop never touches leaf keys of bit positions below its start
index. -/
theorem commitBits_preserves_lower (readBB : Nat → Nat → Bytes → Except DBErr Bytes)
    (compress : Bytes → Bytes) (decompress : Bytes → Nat → Except DBErr Bytes)
    (b : BloomTrieIndexerBackend) :
    ∀ fuel i t res, commitBits readBB compress decompress b fuel i t = res →
      ∀ k, k < i → i + fuel ≤ 65536 →
        trieGet res.2 (encBloomKey k b.sectionNum) = trieGet t (encBloomKey k b.sectionNum) := by
  intro fuel
  induction fuel with
  | zero =>
    intro i t res hres k hk hb
    simp only [commitBits] at hres
    rw [← hres]
  | succ fuel ih =>
    intro i t res hres k hk hb
    have hkey : encBloomKey i b.sectionNum ≠ encBloomKey k b.sectionNum := by
      intro heq
      have := encBloomKey_inj b.sectionNum (by omega) (by omega) heq
      omega
    cases hcol : bloomColumn readBB decompress b i with
    | error e =>
      simp only [commitBits, hcol] at hres
      rw [← hres]
    | ok decomp =>
      simp only [commitBits, hcol] at hres
      have hstep := ih (i + 1) _ res hres k (by omega) (by omega)
      rw [hstep]
      by_cases hc : 0 < (compress decomp).length
      · simp only [hc, if_pos]
        exact trieGet_update_ne t _ _ _ hkey
      · simp only [hc, if_neg, if_false]
        exact trieGet_delete_ne t _ _ hkey

/-- A successful commit loop leaves, at each processed bit position, exactly
the leaf demanded by that position's compressed column: present with the
compressed data when it is non-empty, absent when it is empty. -/
theorem commitBits_sets_leaf (readBB : Nat → Nat → Bytes → Except DBErr Bytes)
    (compress : Bytes → Bytes) (decompress : Bytes → Nat → Except DBErr Bytes)
    (b : BloomTrieIndexerBackend) :
    ∀ fuel i t t2, commitBits readBB compress decompress b fuel i t = (none, t2) →
      ∀ k d, i ≤ k → k < i + fuel → i + fuel ≤ 65536 →
        bloomColumn readBB decompress b k = Except.ok d →
        trieGet t2 (encBloomKey k b.sectionNum) =
          if 0 < (compress d).length then some (compress d) else none := by
  intro fuel
  induction fuel with
  | zero =>
    intro i t t2 hres k d hik hk hb hcol
    omega
  | succ fuel ih =>
    intro i t t2 hres k d hik hk hb hcol
    cases hcoli : bloomColumn readBB decompress b i with
    | error e =>
      simp only [commitBits, hcoli] at hres
      have := congrArg Prod.fst hres
      simp at this
    | ok decomp =>
      simp only [commitBits, hcoli] at hres
      by_cases hki : k = i
      · subst hki
        rw [hcol] at hcoli
        have hd : decomp = d := by
          injection hcoli with h2
          rw [h2]
        subst hd
        have hpres := commitBits_preserves_lower readBB compress decompress b fuel (k + 1) _ _
          hres k (by omega) (by omega)
        rw [hpres]
        by_cases hc : 0 < (compress decomp).length
        · simp only [hc, if_pos]
          exact trieGet_update_self t _ _
        · simp only [hc, if_neg, if_false]
          exact trieGet_delete_self t _
      · exact ih (i + 1) _ t2 hres k d (by omega) (by omega) (by omega) hcol

/-- C1 counterexample: at the concrete stores `errKV`, `emptyKV` and
`putFailKV`, a genuine storage-access error on `db.Get` (which is even hiding
a stored root) and a plain lookup miss produce the identical `GetChtRoot`
result, so the caller cannot distinguish them, and a failing `db.Put` inside
`StoreChtRoot` is entirely swallowed: the store is unchanged and no error is
reported (the Go function has no error result at all). -/
theorem rootStore_miss_error_indistinguishable_cex :
    (dbGet errKV chtKey00).2 = some (DBErr.ioError 0) ∧
    lookupKV errKV.entries chtKey00 = some sampleRoot ∧
    (dbGet emptyKV chtKey00).2 = some DBErr.notFound ∧
    GetChtRoot errKV 0 zeroHash = GetChtRoot emptyKV 0 zeroHash ∧
    StoreChtRoot putFailKV 0 zeroHash sampleRoot = putFailKV := by
  refine ⟨by decide, by decide, by decide, by decide, by decide⟩

/-- C1 (amended): the section root store does not surface storage failures.
`GetChtRoot` / `GetBloomTrieRoot` discard the error of `db.Get` and return
the zero hash on a failing read, exactly as on a miss, and `StoreChtRoot` /
`StoreBloomTrieRoot` discard the error of `db.Put`, leaving a failed write
unreported. -/
theorem rootStore_swallows_storage_errors (db : KVStore) (i : Nat) (head root : Bytes)
    (hgc : chtKey i head ∈ db.failGet)
    (hgb : bloomTrieRootKey i head ∈ db.failGet)
    (hpc : chtKey i head ∈ db.failPut)
    (hpb : bloomTrieRootKey i head ∈ db.failPut) :
    GetChtRoot db i head = zeroHash ∧
    GetBloomTrieRoot db i head = zeroHash ∧
    StoreChtRoot db i head root = db ∧
    StoreBloomTrieRoot db i head root = db := by
  refine ⟨?_, ?_, ?_, ?_⟩
  · unfold GetChtRoot dbGet
    rw [if_pos hgc]
    decide
  · unfold GetBloomTrieRoot dbGet
    rw [if_pos hgb]
    decide
  · unfold StoreChtRoot dbPut
    rw [if_pos hpc]
  · unfold StoreBloomTrieRoot dbPut
    rw [if_pos hpb]

/-- C1 (amended) witness at the concrete failing store `swallowKV`. -/
theorem rootStore_swallows_storage_errors_witness :
    GetChtRoot swallowKV 0 zeroHash = zeroHash ∧
    GetBloomTrieRoot swallowKV 0 zeroHash = zeroHash ∧
    StoreChtRoot swallowKV 0 zeroHash sampleRoot = swallowKV ∧
    StoreBloomTrieRoot swallowKV 0 zeroHash sampleRoot = swallowKV :=
  rootStore_swallows_storage_errors swallowKV 0 zeroHash sampleRoot (by decide) (by decide)
    (by decide) (by decide)

/-- C3: storing a root for (kind, section, head) and reading the same key
back returns exactly that root, for both the CHT and the Bloom Trie kinds;
reading a key that was never written returns the zero hash, not an error
(the read accessors have no error result). -/
theorem rootStore_round_trip (db : KVStore) (i : Nat) (head root : Bytes)
    (hlen : root.length = 32)
    (hcp : chtKey i head ∉ db.failPut) (hcg : chtKey i head ∉ db.failGet)
    (hbp : bloomTrieRootKey i head ∉ db.failPut)
    (hbg : bloomTrieRootKey i head ∉ db.failGet)
    (hmc : lookupKV db.entries (chtKey i head) = none)
    (hmb : lookupKV db.entries (bloomTrieRootKey i head) = none) :
    GetChtRoot (StoreChtRoot db i head root) i head = root ∧
    GetBloomTrieRoot (StoreBloomTrieRoot db i head root) i head = root ∧
    GetChtRoot db i head = zeroHash ∧
    GetBloomTrieRoot db i head = zeroHash := by
  refine ⟨?_, ?_, ?_, ?_⟩
  · unfold GetChtRoot StoreChtRoot dbGet dbPut
    rw [if_neg hcp]
    simp only [List.mem_cons]
    rw [if_neg hcg]
    simp [lookupKV, bytesToHash_of_length_eq root hlen]
  · unfold GetBloomTrieRoot StoreBloomTrieRoot dbGet dbPut
    rw [if_neg hbp]
    simp only [List.mem_cons]
    rw [if_neg hbg]
    simp [lookupKV, bytesToHash_of_length_eq root hlen]
  · unfold GetChtRoot dbGet
    rw [if_neg hcg, hmc]
    decide
  · unfold GetBloomTrieRoot dbGet
    rw [if_neg hbg, hmb]
    decide

/-- C3 witness: the round trip at a concrete empty store and concrete
32-byte root. -/
theorem rootStore_round_trip_witness :
    GetChtRoot (StoreChtRoot emptyKV 0 zeroHash sampleRoot) 0 zeroHash = sampleRoot ∧
    GetBloomTrieRoot (StoreBloomTrieRoot emptyKV 0 zeroHash sampleRoot) 0 zeroHash = sampleRoot ∧
    GetChtRoot emptyKV 0 zeroHash = zeroHash ∧
    GetBloomTrieRoot emptyKV 0 zeroHash = zeroHash :=
  rootStore_round_trip emptyKV 0 zeroHash sampleRoot (by decide) (by decide) (by decide)
    (by decide) (by decide) (by decide) (by decide)

/-- C4: the client-frequency CHT root lookup for index `i` is exactly the
server-frequency lookup at index `(i+1)*8 - 1`, with
`8 = CHTFrequencyClient / CHTFrequencyServer = 32768 / 4096`. -/
theorem getChtV2Root_frequency_conversion (db : KVStore) (i : Nat) (head : Bytes) :
    GetChtV2Root db i head = GetChtRoot db ((i + 1) * 8 - 1) head ∧
    CHTFrequencyClient / CHTFrequencyServer = 8 ∧
    CHTFrequencyClient = 32768 ∧ CHTFrequencyServer = 4096 :=
  ⟨rfl, rfl, rfl, rfl⟩

/-- C5: `ChtIndexerBackend.Process` halts (Go `panic(nil)`, modelled as
`none`) exactly when the external total-difficulty lookup for (header hash,
header number) is absent; when present it inserts the leaf keyed by the
8-byte big-endian block number with the RLP-encoded (hash, total difficulty)
value and records the header hash as the section's running last hash. -/
theorem chtProcess_panics_iff_missing_td (readTd : Bytes → Nat → Option Nat)
    (c : ChtIndexerBackend) (header : Header) :
    (ChtIndexerBackend.Process readTd c header = none ↔
      readTd header.hash header.number = none) ∧
    ∀ td, readTd header.hash header.number = some td →
      ChtIndexerBackend.Process readTd c header =
        some { c with
                lastHash := header.hash
                trie := trieUpdate c.trie (beBytes 8 header.number)
                          (rlpChtNode header.hash td) } := by
  constructor
  · cases h : readTd header.hash header.number <;>
      simp [ChtIndexerBackend.Process, h]
  · intro td h
    simp [ChtIndexerBackend.Process, h]

/-- C5 witness: with a concrete total-difficulty index holding value 3, the
header with block number 42 is inserted and its hash recorded. -/
theorem chtProcess_panics_iff_missing_td_witness :
    ChtIndexerBackend.Process (fun _ _ => some 3) chtB0 hdr42 =
      some { chtB0 with
              lastHash := hdr42.hash
              trie := trieUpdate chtB0.trie (beBytes 8 hdr42.number)
                        (rlpChtNode hdr42.hash 3) } :=
  (chtProcess_panics_iff_missing_td (fun _ _ => some 3) chtB0 hdr42).2 3 rfl

/-- C9: checkpoint lookup by genesis identity returns the exact hardcoded
record for each known genesis hash and "not found" (`none`, Go's `ok=false`)
for every other genesis hash. -/
theorem trustedCheckpoints_lookup (g : Bytes)
    (hm : g ≠ MainnetGenesisHash) (ht : g ≠ TestnetGenesisHash) :
    lookupTrustedCheckpoint MainnetGenesisHash = some mainnetCheckpoint ∧
    lookupTrustedCheckpoint TestnetGenesisHash = some ropstenCheckpoint ∧
    lookupTrustedCheckpoint g = none := by
  refine ⟨by decide, by decide, ?_⟩
  simp [lookupTrustedCheckpoint, trustedCheckpoints, lookupKV, Ne.symm hm, Ne.symm ht]

/-- C9 witness: the zero genesis hash is unknown and yields "not found". -/
theorem trustedCheckpoints_lookup_witness :
    lookupTrustedCheckpoint MainnetGenesisHash = some mainnetCheckpoint ∧
    lookupTrustedCheckpoint TestnetGenesisHash = some ropstenCheckpoint ∧
    lookupTrustedCheckpoint zeroHash = none :=
  trustedCheckpoints_lookup zeroHash (by decide) (by decide)

/-- C10: on a freshly constructed CHT backend, `Commit` directly after a
successful `Reset` with zero intervening `Process` calls still succeeds and
persists a section root entry for the current section whose section-head
component is the all-zero hash (the zero value of `lastHash`); no operation
checks that the section's headers were processed. -/
theorem chtCommit_without_process (clientMode : Bool) (db : KVStore) (tdb : TrieDB)
    (s : Nat) (prevHead : Bytes) (c : ChtIndexerBackend)
    (hreset : ChtIndexerBackend.Reset (newChtIndexerBackend clientMode) db tdb s prevHead =
      Except.ok c)
    (hput : chtKey s zeroHash ∉ db.failPut) :
    (ChtIndexerBackend.Commit c tdb db).1 = none ∧
    lookupKV ((ChtIndexerBackend.Commit c tdb db).2.2.2).entries (chtKey s zeroHash) =
      some (trieRoot c.trie) := by
  unfold ChtIndexerBackend.Reset at hreset
  cases htn : trieNew (if 0 < s then GetChtRoot db (s - 1) prevHead else zeroHash) tdb with
  | error e =>
    simp [htn, Except.map] at hreset
  | ok t =>
    simp only [htn, Except.map, Except.ok.injEq] at hreset
    rw [← hreset]
    refine ⟨rfl, ?_⟩
    unfold ChtIndexerBackend.Commit StoreChtRoot dbPut
    simp only [newChtIndexerBackend]
    rw [if_neg hput]
    simp [lookupKV]

/-- C10 witness: fresh server-mode backend, `Reset` to section 0, `Commit`
immediately; the entry is stored under the zero section head. -/
theorem chtCommit_without_process_witness :
    (ChtIndexerBackend.Commit chtB0 emptyTrieDB emptyKV).1 = none ∧
    lookupKV ((ChtIndexerBackend.Commit chtB0 emptyTrieDB emptyKV).2.2.2).entries
        (chtKey 0 zeroHash) = some (trieRoot chtB0.trie) :=
  chtCommit_without_process false emptyKV emptyTrieDB 0 zeroHash chtB0 (by decide) (by decide)

/-- C2 counterexample: `Reset` of the bloom trie backend does not clear the
sub-section-head scratch array.  At the concrete backend `staleBloom`,
carrying a non-zero stale slot, `Reset(1, zeroHash)` succeeds but the slot
still holds the stale hash, not the cleared zero value. -/
theorem bloomReset_does_not_clear_cex :
    BloomTrieIndexerBackend.Reset staleBloom emptyKV emptyTrieDB 1 zeroHash =
      Except.ok { staleBloom with sectionNum := 1 } ∧
    ({ staleBloom with sectionNum := 1 } : BloomTrieIndexerBackend).sectionHeads.getD 0 zeroHash
      = oneHash ∧
    oneHash ≠ zeroHash := by
  refine ⟨by decide, by decide, by decide⟩

/-- C2 (amended): `Reset(section, previousSectionHead)` opens the trie
chained from the previous section's persisted root (the empty trie for
section 0), records the section index, and leaves the sub-section-head
scratch array exactly as it was; the array is allocated only once, by
`NewBloomTrieIndexer`, zero-valued with length
`bloomTrieRatio = BloomTrieFrequency / parentSectionSize`. -/
theorem bloomReset_chains_and_preserves_heads (b : BloomTrieIndexerBackend) (db : KVStore)
    (tdb : TrieDB) (sectionIdx : Nat) (head : Bytes) (b2 : BloomTrieIndexerBackend)
    (hreset : BloomTrieIndexerBackend.Reset b db tdb sectionIdx head = Except.ok b2) :
    b2.sectionHeads = b.sectionHeads ∧
    b2.sectionNum = sectionIdx ∧
    trieNew (if 0 < sectionIdx then GetBloomTrieRoot db (sectionIdx - 1) head else zeroHash)
      tdb = Except.ok b2.trie ∧
    ∀ clientMode,
      (newBloomTrieIndexerBackend clientMode).sectionHeads =
        List.replicate (BloomTrieFrequency / (newBloomTrieIndexerBackend clientMode).parentSectionSize)
          zeroHash := by
  unfold BloomTrieIndexerBackend.Reset at hreset
  cases htn : trieNew (if 0 < sectionIdx then GetBloomTrieRoot db (sectionIdx - 1) head
      else zeroHash) tdb with
  | error e =>
    simp [htn, Except.map] at hreset
  | ok t =>
    simp only [htn, Except.map, Except.ok.injEq] at hreset
    rw [← hreset]
    refine ⟨rfl, rfl, rfl, ?_⟩
    intro clientMode
    cases clientMode <;> rfl

/-- C2 (amended) witness at the concrete stale backend. -/
theorem bloomReset_chains_and_preserves_heads_witness :
    ({ staleBloom with sectionNum := 1 } : BloomTrieIndexerBackend).sectionHeads =
      staleBloom.sectionHeads ∧
    ({ staleBloom with sectionNum := 1 } : BloomTrieIndexerBackend).sectionNum = 1 ∧
    trieNew (if 0 < 1 then GetBloomTrieRoot emptyKV (1 - 1) zeroHash else zeroHash) emptyTrieDB
      = Except.ok ({ staleBloom with sectionNum := 1 } : BloomTrieIndexerBackend).trie ∧
    ∀ clientMode,
      (newBloomTrieIndexerBackend clientMode).sectionHeads =
        List.replicate (BloomTrieFrequency / (newBloomTrieIndexerBackend clientMode).parentSectionSize)
          zeroHash :=
  bloomReset_chains_and_preserves_heads staleBloom emptyKV emptyTrieDB 1 zeroHash
    { staleBloom with sectionNum := 1 } (by decide)

/-- C8 counterexample: in client mode `Process` tests the offset against
`parentSectionSize = BloomTrieFrequency = 32768`, not against the underlying
bloom sub-section size 4096.  For the client-mode backend and the header at
block 4095 (`(offset+1) % 4096 = 0`), nothing is recorded: the backend is
returned unchanged and slot `offset/4096` still holds the zero hash, not the
header's hash. -/
theorem bloomProcess_client_mode_cex :
    (4095 + 1) % 4096 = 0 ∧
    BloomTrieIndexerBackend.Process clientBloom hdr4095 = some clientBloom ∧
    clientBloom.sectionHeads.getD (4095 / 4096) zeroHash ≠ hdr4095.hash := by
  refine ⟨by decide, by decide, by decide⟩

/-- C8 (amended): with `offset` the uint64 difference
`header.number - section*BloomTrieFrequency`, `Process` records the header
hash into scratch slot `offset / parentSectionSize` exactly when
`(offset+1) % parentSectionSize = 0` (and the slot is in range), where
`parentSectionSize` is 4096 in server mode but 32768 in client mode;
otherwise it records nothing. -/
theorem bloomProcess_records_on_parent_boundary (b : BloomTrieIndexerBackend)
    (header : Header) :
    ((sub64 header.number (b.sectionNum * BloomTrieFrequency) + 1) % b.parentSectionSize ≠ 0 →
        BloomTrieIndexerBackend.Process b header = some b) ∧
    ((sub64 header.number (b.sectionNum * BloomTrieFrequency) + 1) % b.parentSectionSize = 0 →
      sub64 header.number (b.sectionNum * BloomTrieFrequency) / b.parentSectionSize <
          b.sectionHeads.length →
        BloomTrieIndexerBackend.Process b header =
          some { b with
                  sectionHeads := b.sectionHeads.set
                    (sub64 header.number (b.sectionNum * BloomTrieFrequency) /
                      b.parentSectionSize) header.hash }) ∧
    (newBloomTrieIndexerBackend true).parentSectionSize = BloomTrieFrequency ∧
    (newBloomTrieIndexerBackend false).parentSectionSize = ethBloomBitsSection := by
  refine ⟨?_, ?_, rfl, rfl⟩
  · intro hne
    simp [BloomTrieIndexerBackend.Process, hne]
  · intro heq hlt
    simp [BloomTrieIndexerBackend.Process, heq, hlt]

/-- C8 (amended) witness: in server mode the header at block 4095 is
recorded into slot 0. -/
theorem bloomProcess_records_on_parent_boundary_witness :
    BloomTrieIndexerBackend.Process serverBloom hdr4095 =
      some { serverBloom with
              sectionHeads := serverBloom.sectionHeads.set
                (sub64 hdr4095.number (serverBloom.sectionNum * BloomTrieFrequency) /
                  serverBloom.parentSectionSize) hdr4095.hash } :=
  (bloomProcess_records_on_parent_boundary serverBloom hdr4095).2.1 (by decide) (by decide)

/-- Any read or decompression failure inside one bit column - at the first
sub-section where one occurs - aborts the column build with exactly that
error. -/
theorem bloomColumnRead_error_propagates (readBB : Nat → Nat → Bytes → Except DBErr Bytes)
    (decompress : Bytes → Nat → Except DBErr Bytes) (b : BloomTrieIndexerBackend)
    (i j : Nat) (e : DBErr)
    (hfail : readBB i (b.sectionNum * b.bloomTrieRatio + j) (b.sectionHeads.getD j zeroHash) =
        Except.error e ∨
      ∃ data, readBB i (b.sectionNum * b.bloomTrieRatio + j) (b.sectionHeads.getD j zeroHash) =
          Except.ok data ∧
        decompress data (b.parentSectionSize / 8) = Except.error e) :
    ∀ fuel j0, j0 ≤ j → j < j0 + fuel →
      (∀ j2, j0 ≤ j2 → j2 < j →
        ∃ data dd,
          readBB i (b.sectionNum * b.bloomTrieRatio + j2) (b.sectionHeads.getD j2 zeroHash) =
            Except.ok data ∧
          decompress data (b.parentSectionSize / 8) = Except.ok dd) →
      bloomColumnRead readBB decompress b i fuel j0 = Except.error e := by
  intro fuel
  induction fuel with
  | zero =>
    intro j0 hle hlt hprev
    omega
  | succ fuel ih =>
    intro j0 hle hlt hprev
    by_cases hj : j = j0
    · subst hj
      rcases hfail with hr | ⟨data, hr, hd⟩
      · simp only [bloomColumnRead, hr]
      · simp only [bloomColumnRead, hr, hd]
    · obtain ⟨data, dd, hr, hd⟩ := hprev j0 le_rfl (by omega)
      simp only [bloomColumnRead, hr, hd]
      rw [ih (j0 + 1) (by omega) (by omega) (fun j2 h1 h2 => hprev j2 (by omega) h2)]
      rfl

/-- The whole-commit loop returns the error of the first failing bit
column. -/
theorem commitBits_error_propagates (readBB : Nat → Nat → Bytes → Except DBErr Bytes)
    (compress : Bytes → Bytes) (decompress : Bytes → Nat → Except DBErr Bytes)
    (b : BloomTrieIndexerBackend) (i : Nat) (e : DBErr)
    (hcol : bloomColumn readBB decompress b i = Except.error e) :
    ∀ fuel i0 t, i0 ≤ i → i < i0 + fuel →
      (∀ i2, i0 ≤ i2 → i2 < i → ∃ d, bloomColumn readBB decompress b i2 = Except.ok d) →
      (commitBits readBB compress decompress b fuel i0 t).1 = some e := by
  intro fuel
  induction fuel with
  | zero =>
    intro i0 t hle hlt hprev
    omega
  | succ fuel ih =>
    intro i0 t hle hlt hprev
    by_cases hi : i = i0
    · subst hi
      simp [commitBits, hcol]
    · obtain ⟨d, hd⟩ := hprev i0 le_rfl (by omega)
      simp only [commitBits, hd]
      exact ih (i0 + 1) _ (by omega) (by omega) (fun i2 h1 h2 => hprev i2 (by omega) h2)

/-- C6: bloom trie `Commit` is all-or-nothing per section, with every
failure surfaced.  Whenever `Commit` returns an error, the trie node
database and the key-value store (hence the section root store) are exactly
the input ones, so no section root entry is persisted.  And no failure is
ever swallowed: at any bit position, the first failing bloom-bits read or
the first failing decompression makes that bit's column build fail with
exactly that error, and the first failing column makes `Commit` return
exactly that error. -/
theorem bloomCommit_all_or_nothing (readBB : Nat → Nat → Bytes → Except DBErr Bytes)
    (compress : Bytes → Bytes) (decompress : Bytes → Nat → Except DBErr Bytes)
    (b : BloomTrieIndexerBackend) (tdb : TrieDB) (db : KVStore) :
    (∀ e, (BloomTrieIndexerBackend.Commit readBB compress decompress b tdb db).1 = some e →
        (BloomTrieIndexerBackend.Commit readBB compress decompress b tdb db).2.2.1 = tdb ∧
        (BloomTrieIndexerBackend.Commit readBB compress decompress b tdb db).2.2.2 = db) ∧
    (∀ i e, i < BloomBitLength →
      (∀ i2, i2 < i → ∃ d, bloomColumn readBB decompress b i2 = Except.ok d) →
      bloomColumn readBB decompress b i = Except.error e →
        (BloomTrieIndexerBackend.Commit readBB compress decompress b tdb db).1 = some e) ∧
    (∀ i j e, j < b.bloomTrieRatio →
      (∀ j2, j2 < j →
        ∃ data dd,
          readBB i (b.sectionNum * b.bloomTrieRatio + j2) (b.sectionHeads.getD j2 zeroHash) =
            Except.ok data ∧
          decompress data (b.parentSectionSize / 8) = Except.ok dd) →
      (readBB i (b.sectionNum * b.bloomTrieRatio + j) (b.sectionHeads.getD j zeroHash) =
          Except.error e ∨
        ∃ data,
          readBB i (b.sectionNum * b.bloomTrieRatio + j) (b.sectionHeads.getD j zeroHash) =
            Except.ok data ∧
          decompress data (b.parentSectionSize / 8) = Except.error e) →
        bloomColumn readBB decompress b i = Except.error e) := by
  refine ⟨?_, ?_, ?_⟩
  · intro e he
    unfold BloomTrieIndexerBackend.Commit at he ⊢
    rcases hcb : commitBits readBB compress decompress b BloomBitLength 0 b.trie with ⟨err, t⟩
    rw [hcb] at he
    cases err with
    | none => simp at he
    | some e2 => exact ⟨rfl, rfl⟩
  · intro i e hi hprev hcol
    have hloop := commitBits_error_propagates readBB compress decompress b i e hcol
      BloomBitLength 0 b.trie (Nat.zero_le i) (by rw [Nat.zero_add]; exact hi)
      (fun i2 _ h2 => hprev i2 h2)
    unfold BloomTrieIndexerBackend.Commit
    rcases hcb : commitBits readBB compress decompress b BloomBitLength 0 b.trie with ⟨err, t⟩
    rw [hcb] at hloop
    cases err with
    | none => simp at hloop
    | some e2 => exact hloop
  · intro i j e hj hprev hfail
    unfold bloomColumn
    exact bloomColumnRead_error_propagates readBB decompress b i j e hfail
      b.bloomTrieRatio 0 (Nat.zero_le j) (by rw [Nat.zero_add]; exact hj)
      (fun j2 _ h2 => hprev j2 h2)

/-- C6 witness: every bloom-bits read succeeds but decompression fails at
bit position 7, sub-section 3; the column for bit 7 fails with that error,
`Commit` returns exactly it, and both stores are unchanged. -/
theorem bloomCommit_all_or_nothing_witness :
    (BloomTrieIndexerBackend.Commit pairReadBB idCompress failDecompress serverBloom
        emptyTrieDB emptyKV).1 = some (DBErr.ioError 2) ∧
    (BloomTrieIndexerBackend.Commit pairReadBB idCompress failDecompress serverBloom
        emptyTrieDB emptyKV).2.2.1 = emptyTrieDB ∧
    (BloomTrieIndexerBackend.Commit pairReadBB idCompress failDecompress serverBloom
        emptyTrieDB emptyKV).2.2.2 = emptyKV := by
  have hthm := bloomCommit_all_or_nothing pairReadBB idCompress failDecompress serverBloom
    emptyTrieDB emptyKV
  have hcol : bloomColumn pairReadBB failDecompress serverBloom 7 =
      Except.error (DBErr.ioError 2) := by
    refine hthm.2.2 7 3 (DBErr.ioError 2) (by decide) ?_ (Or.inr ⟨[7, 3], rfl, rfl⟩)
    intro j2 hj2
    interval_cases j2 <;> exact ⟨_, _, rfl, rfl⟩
  have hprev7 : ∀ i2, i2 < 7 →
      ∃ d, bloomColumn pairReadBB failDecompress serverBloom i2 = Except.ok d := by
    intro i2 hi2
    interval_cases i2 <;> exact ⟨_, rfl⟩
  have herr := hthm.2.1 7 (DBErr.ioError 2) (by decide) hprev7 hcol
  have hun := hthm.1 (DBErr.ioError 2) herr
  exact ⟨herr, hun.1, hun.2⟩

/-- C7: for every bit position processed by a successful bloom trie
`Commit`, the resulting trie holds the leaf at key (2-byte big-endian bit
index, 8-byte big-endian section index) exactly when the compressed
concatenated column is non-empty, with that compressed vector as value; an
empty compressed result leaves the key deleted instead. -/
theorem bloomCommit_leaf_insert_or_delete (readBB : Nat → Nat → Bytes → Except DBErr Bytes)
    (compress : Bytes → Bytes) (decompress : Bytes → Nat → Except DBErr Bytes)
    (b : BloomTrieIndexerBackend) (tdb : TrieDB) (db : KVStore) (i : Nat) (d : Bytes)
    (hi : i < BloomBitLength)
    (hcol : bloomColumn readBB decompress b i = Except.ok d)
    (hok : (BloomTrieIndexerBackend.Commit readBB compress decompress b tdb db).1 = none) :
    trieGet ((BloomTrieIndexerBackend.Commit readBB compress decompress b tdb db).2.1).trie
        (encBloomKey i b.sectionNum) =
      if 0 < (compress d).length then some (compress d) else none := by
  unfold BloomTrieIndexerBackend.Commit at hok ⊢
  rcases hcb : commitBits readBB compress decompress b BloomBitLength 0 b.trie with ⟨err, t⟩
  rw [hcb] at hok
  cases err with
  | some e => simp at hok
  | none =>
    have hb : (0 : Nat) + BloomBitLength ≤ 65536 := by decide
    have hlt : i < 0 + BloomBitLength := by
      rw [Nat.zero_add]
      exact hi
    exact commitBits_sets_leaf readBB compress decompress b BloomBitLength 0 b.trie t hcb
      i d (Nat.zero_le i) hlt hb hcol

set_option maxRecDepth 400000 in
/-- C7 witness: server-mode backend, reader returning empty vectors and the
identity codec; bit 0's compressed column is empty, so its leaf is absent
after a successful commit. -/
theorem bloomCommit_leaf_insert_or_delete_witness :
    trieGet ((BloomTrieIndexerBackend.Commit okReadBB idCompress okDecompress serverBloom
        emptyTrieDB emptyKV).2.1).trie (encBloomKey 0 serverBloom.sectionNum) =
      if 0 < (idCompress []).length then some (idCompress []) else none :=
  bloomCommit_leaf_insert_or_delete okReadBB idCompress okDecompress serverBloom
    emptyTrieDB emptyKV 0 [] (by decide) rfl (by decide)
